import Mathlib

/-!
Verification development for the track-rank service
(`src/app/api/spotify/route.ts`).

The TypeScript route resolves a pasted Spotify URL (or a search-selection
click) into ranked collections of tracks: an album's tracks, or an
approximation of an artist's top tracks, each sorted descending by
popularity, together with the 1-based rank of a focal track inside the
collection.

The shallow embedding below models the pure computational content of that
route. Network responses are abstracted as environment functions (for
example the album-track page at a given offset, or the search-result page
at a given offset); the data shapes mirror the TypeScript interfaces
field by field. JavaScript exceptions (property access on `undefined`)
are modelled with `Except`; the (potentially) non-terminating album
pagination loop is modelled with explicit fuel, where a result of `none`
means the loop has not exited within the given bound.
-/

namespace TrackRank

/-- Mirrors the `images` entries of the Spotify payloads. -/
structure Image where
  url : String
  height : Nat
  width : Nat
deriving DecidableEq

/-- Mirrors the TypeScript interface `SpotifyArtist`. -/
structure SpotifyArtist where
  name : String
  id : String
deriving DecidableEq

/-- Mirrors the nested optional `album` object of `SpotifyTrack`. -/
structure TrackAlbumRef where
  id : String
  name : String
  release_date : String
  images : List Image
deriving DecidableEq

/-- Mirrors the TypeScript interface `SpotifyTrack` (a raw track payload,
for example one item of a search-result page). -/
structure SpotifyTrack where
  id : String
  name : String
  artists : List SpotifyArtist
  popularity : Nat
  duration_ms : Nat
  preview_url : Option String
  album : Option TrackAlbumRef
  explicit : Option Bool
deriving DecidableEq

/-- Mirrors the nested `album` object of `ProcessedTrack` (it adds
`total_tracks` to `TrackAlbumRef`). -/
structure ProcessedAlbumRef where
  id : String
  name : String
  release_date : String
  total_tracks : Nat
  images : List Image
deriving DecidableEq

/-- Mirrors the TypeScript interface `ProcessedTrack`, the normalized
track shape returned to callers. -/
structure ProcessedTrack where
  id : String
  name : String
  artists : List SpotifyArtist
  popularity : Nat
  duration_ms : Nat
  preview_url : Option String
  album : Option ProcessedAlbumRef
  explicit : Option Bool
deriving DecidableEq

/-- Mirrors one item of `SpotifyAlbumResponse.items` (a track stub from
the paginated album track listing; it carries no popularity). -/
structure AlbumStub where
  id : String
  name : String
  artists : List SpotifyArtist
deriving DecidableEq

/-- Mirrors the TypeScript interface `SpotifyAlbumDetails`. -/
structure AlbumDetails where
  id : String
  name : String
  artists : List SpotifyArtist
  release_date : String
  total_tracks : Nat
  images : List Image
deriving DecidableEq

/-- A JavaScript runtime fault: property access on `undefined`
(`track.artists[0].id` with an empty `artists` array). It is caught by
the route's top-level `catch` and surfaces as a 500 response. -/
inductive JsError where
  | typeError
deriving DecidableEq

/-- The comparator `(a, b) => b.popularity - a.popularity` passed to
`Array.prototype.sort`: `a` is placed no later than `b` exactly when
`b.popularity <= a.popularity`. JavaScript sort is stable, as is
`List.mergeSort`, so sorting with this relation models the source. -/
def popDescLe (a b : ProcessedTrack) : Bool :=
  decide (b.popularity ≤ a.popularity)

/-- The environment of one `getAlbumTracks` call: the album-detail
response, the first album-tracks page (`items` and its `next` cursor),
the `items` of the page fetched at a given offset inside the loop, and
the `getTrackDetails` result for a given track id. -/
structure AlbumEnv where
  albumDetails : AlbumDetails
  firstItems : List AlbumStub
  firstNext : Option String
  pages : Nat → List AlbumStub
  trackDetails : String → ProcessedTrack

/-- The page-fetch loop of `getAlbumTracks` (lines 167-178 of the route):
`while (response.data.next) { fetch page at offset; append; offset += 50 }`.
The loop guard reads `response.data.next`, the `next` cursor of the FIRST
page response, which is never reassigned inside the loop; the embedding
reflects that by consulting `env.firstNext` at every iteration. `fuel`
bounds the number of iterations; `none` means the loop has not exited
within `fuel` iterations. -/
def albumPagesLoop (env : AlbumEnv) : Nat → List AlbumStub → Nat → Option (List AlbumStub)
  | 0, allTracks, _ =>
    if env.firstNext.isSome then none else some allTracks
  | fuel + 1, allTracks, offset =>
    if env.firstNext.isSome then
      albumPagesLoop env fuel (allTracks ++ env.pages offset) (offset + 50)
    else some allTracks

/-- The function `getAlbumTracks`: run the pagination loop starting from
the first page items at offset 50, enrich every stub through
`getTrackDetails`, overwrite the nested album images with the album-detail
images, and sort descending by popularity. `none` propagates loop
non-exit. -/
def getAlbumTracks (env : AlbumEnv) (fuel : Nat) : Option (List ProcessedTrack) :=
  (albumPagesLoop env fuel env.firstItems 50).map fun allTracks =>
    (allTracks.map fun stub =>
      let td := env.trackDetails stub.id
      { td with album := td.album.map fun a => { a with images := env.albumDetails.images } }
    ).mergeSort popDescLe

/-- The access `track.artists[0].id`: throws a `TypeError` when the
`artists` array is empty, otherwise yields the first artist's id. -/
def headArtistId (artists : List SpotifyArtist) : Except JsError String :=
  match artists with
  | [] => .error .typeError
  | a :: _ => .ok a.id

/-- The filter `newTracks.filter(track => track.artists[0].id === artistId)`
of `getArtistTopTracks`: keeps the tracks whose first listed artist has the
target id, throwing at the first track whose `artists` array is empty. -/
def filterPrimary (artistId : String) : List SpotifyTrack → Except JsError (List SpotifyTrack)
  | [] => .ok []
  | t :: ts =>
    match headArtistId t.artists with
    | .error e => .error e
    | .ok aid =>
      match filterPrimary artistId ts with
      | .error e => .error e
      | .ok rest => if aid = artistId then .ok (t :: rest) else .ok rest

/-- The search loop of `getArtistTopTracks` (lines 218-241 of the route):
`while (primaryArtistTracks.length < 100 && offset < 200)` fetch the
search page at `offset` (the page content is abstracted as
`pages offset`), break on an empty page, filter to primary-artist tracks,
append, and advance `offset` by the fixed limit 50. The second component
of the result records the offset of every search request issued, in
order. -/
def searchLoop (pages : Nat → List SpotifyTrack) (artistId : String)
    (primaryArtistTracks : List SpotifyTrack) (offset : Nat) :
    Except JsError (List SpotifyTrack) × List Nat :=
  if _h : primaryArtistTracks.length < 100 ∧ offset < 200 then
    let newTracks := pages offset
    if newTracks = [] then (.ok primaryArtistTracks, [offset])
    else
      match filterPrimary artistId newTracks with
      | .error e => (.error e, [offset])
      | .ok newPrimaryTracks =>
        let r := searchLoop pages artistId (primaryArtistTracks ++ newPrimaryTracks) (offset + 50)
        (r.1, offset :: r.2)
  else (.ok primaryArtistTracks, [])
termination_by 200 - offset
decreasing_by omega

/-- The per-track normalization in the `return` of `getArtistTopTracks`:
search results carry no `total_tracks`, so the nested album (when
present) gets the hard-coded constant 1. -/
def processSearchTrack (t : SpotifyTrack) : ProcessedTrack :=
  { id := t.id
    name := t.name
    artists := t.artists
    popularity := t.popularity
    duration_ms := t.duration_ms
    preview_url := t.preview_url
    album := t.album.map fun a =>
      { id := a.id
        name := a.name
        release_date := a.release_date
        total_tracks := 1
        images := a.images }
    explicit := t.explicit }

/-- The function `getArtistTopTracks`: accumulate primary-artist tracks
through the search loop (starting from the empty list at offset 0), then
normalize, sort descending by popularity, and truncate to the first 100. -/
def getArtistTopTracks (pages : Nat → List SpotifyTrack) (artistId : String) :
    Except JsError (List ProcessedTrack) :=
  match (searchLoop pages artistId [] 0).1 with
  | .error e => .error e
  | .ok primaryArtistTracks =>
    .ok (((primaryArtistTracks.map processSearchTrack).mergeSort popDescLe).take 100)

/-- The JavaScript expression `albumTracks.findIndex((t) => t.id === trackId)`:
the index of the first element with the focal id, or -1 when there is
none. -/
def jsFindIndex (l : List ProcessedTrack) (trackId : String) : Int :=
  match l.findIdx? (fun t => t.id == trackId) with
  | some i => (i : Int)
  | none => -1

/-- The error outcomes the `POST` handler can produce on the track
branch. `typeError` is an uncaught JavaScript fault mapped to a 500
response by the top-level `catch`; the other two are explicit 404
responses. -/
inductive ApiError where
  | typeError
  | trackAlbumNotFound
  | artistNotFound
deriving DecidableEq

/-- The payload assembled by the `track` branch of `POST`. -/
structure TrackResult where
  track : ProcessedTrack
  albumTracks : List ProcessedTrack
  trackRank : Int
  totalTracks : Nat
  artistTopTracks : Option (List ProcessedTrack)
  artistTrackRank : Option Int
deriving DecidableEq

/-- The `track` branch of `POST` (lines 312-348 of the route), given the
already-fetched track detail: 404 when the track has no album; read
`track.artists[0].id` (a `TypeError` when `artists` is empty); 404 when
that id is the empty string (the only falsy string); then resolve album
tracks and artist top tracks — both unconditionally, via `Promise.all` —
and assemble the payload, attaching `artistTopTracks`/`artistTrackRank`
only when the album's `total_tracks` equals 1. The outer `Option` is
`none` when the album pagination loop never exits within `fuel`
iterations (with `Promise.all` semantics, a rejection from the search
side still wins over a hung album fetch, hence the artist resolution is
inspected first). -/
def trackBranch (trackId : String) (track : ProcessedTrack) (albumEnv : AlbumEnv)
    (pages : Nat → List SpotifyTrack) (fuel : Nat) : Option (Except ApiError TrackResult) :=
  match track.album with
  | none => some (.error .trackAlbumNotFound)
  | some alb =>
    match track.artists with
    | [] => some (.error .typeError)
    | a :: _ =>
      if a.id = "" then some (.error .artistNotFound)
      else
        match getArtistTopTracks pages a.id with
        | .error _ => some (.error .typeError)
        | .ok artistTopTracks =>
          match getAlbumTracks albumEnv fuel with
          | none => none
          | some albumTracks =>
            some (.ok
              { track := track
                albumTracks := albumTracks
                trackRank := jsFindIndex albumTracks trackId + 1
                totalTracks := albumTracks.length
                artistTopTracks := if alb.total_tracks = 1 then some artistTopTracks else none
                artistTrackRank :=
                  if alb.total_tracks = 1 then some (jsFindIndex artistTopTracks trackId + 1)
                  else none })

/-- The character class `[a-zA-Z0-9]` of the URL regexes. -/
def isAlnumChar (c : Char) : Bool :=
  c.isAlpha || c.isDigit

/-- The maximal run of `[a-zA-Z0-9]` characters at the front of a string:
what the greedy group `([a-zA-Z0-9]+)` captures once its starting
position is fixed. -/
def takeAlnum : List Char → List Char
  | [] => []
  | c :: cs => if isAlnumChar c then c :: takeAlnum cs else []

/-- The JavaScript expression `s.match(/pat\/([a-zA-Z0-9]+)/)[1]`, for a
literal pattern `pat` ending in a slash: scan left to right for the first
position where `pat` occurs followed by at least one `[a-zA-Z0-9]`
character, and capture the maximal alphanumeric run there; `none` when no
position matches. -/
def matchCapture (pat : List Char) : List Char → Option (List Char)
  | [] => none
  | c :: cs =>
    match pat.isPrefixOf (c :: cs), (c :: cs).drop pat.length with
    | true, d :: ds => if isAlnumChar d then some (d :: takeAlnum ds) else matchCapture pat cs
    | true, [] => matchCapture pat cs
    | false, _ => matchCapture pat cs

/-- The literal part of the regex `/artist\/([a-zA-Z0-9]+)/`. -/
def artistPat : List Char := ['a', 'r', 't', 'i', 's', 't', '/']

/-- The literal part of the regex `/album\/([a-zA-Z0-9]+)/`. -/
def albumPat : List Char := ['a', 'l', 'b', 'u', 'm', '/']

/-- The literal part of the regex `/track\/([a-zA-Z0-9]+)/`. -/
def trackPat : List Char := ['t', 'r', 'a', 'c', 'k', '/']

/-- The outcome of the URL detection in `POST` (lines 280-282 plus the
final `else` at lines 349-354). -/
inductive UrlClass where
  | artist (id : List Char)
  | album (id : List Char)
  | track (id : List Char)
  | invalidUrl
deriving DecidableEq

/-- The URL detection of `POST`: try the artist regex, then the album
regex, then the track regex, in that order; when none matches, answer
the 400 response `Invalid Spotify URL`. -/
def classifyUrl (url : List Char) : UrlClass :=
  match matchCapture artistPat url with
  | some id => .artist id
  | none =>
    match matchCapture albumPat url with
    | some id => .album id
    | none =>
      match matchCapture trackPat url with
      | some id => .track id
      | none => .invalidUrl

/-- The test `haystack.includes(needle)` on strings. -/
def containsSub (needle : List Char) : List Char → Bool
  | [] => needle.isPrefixOf []
  | c :: cs => needle.isPrefixOf (c :: cs) || containsSub needle cs

/-- The front-end predicate `isSpotifyUrl` (page component): the query
contains `spotify.com` or `spotify.link` as a substring. -/
def isSpotifyUrl (q : List Char) : Bool :=
  containsSub "spotify.com".toList q || containsSub "spotify.link".toList q

/-- The front-end guard `!query.trim()`: the query has no non-whitespace
content. -/
def isBlank (q : List Char) : Bool :=
  q.all (·.isWhitespace)

/-- Where one debounced user input ends up. -/
inductive Dispatch where
  | ignored
  | lookup (c : UrlClass)
  | search
deriving DecidableEq

/-- The front-end `debouncedSearch` dispatch: blank input is dropped;
input containing a Spotify domain marker is POSTed to the lookup route
(whose URL detection is `classifyUrl`); anything else goes to the
free-text search route. -/
def dispatch (q : List Char) : Dispatch :=
  if isBlank q then .ignored
  else if isSpotifyUrl q then .lookup (classifyUrl q)
  else .search

/-- The ordering property the spec asserts of every returned collection:
a strictly more popular track appears at a strictly smaller index. -/
def DescByPopularity (l : List ProcessedTrack) : Prop :=
  ∀ (i j : Nat) (hi : i < l.length) (hj : j < l.length),
    l[j].popularity < l[i].popularity → i < j


/-- The 31 characters `https://open.spotify.com/track/`, the canonical
prefix of a shared track URL. -/
def trackUrlHead : List Char :=
  ['h', 't', 't', 'p', 's', ':', '/', '/', 'o', 'p', 'e', 'n', '.',
   's', 'p', 'o', 't', 'i', 'f', 'y', '.', 'c', 'o', 'm', '/',
   't', 'r', 'a', 'c', 'k', '/']

/-- The admissible tails of a canonical track URL: nothing, a trailing
slash, or a query string starting with `?` and containing no slash. -/
def SuffixOK (v : List Char) : Prop :=
  v = [] ∨ v = ['/'] ∨ ∃ q, v = '?' :: q ∧ ∀ c ∈ q, c ≠ '/'

/-- A concrete Spotify URL of a kind the route does not recognize. -/
def playlistUrl : List Char :=
  "https://open.spotify.com/playlist/37i9dQZF1DXcBWIGoYBM5M".toList

/-! ### Concrete sample data used as test inputs -/

/-- A concrete album-detail payload (no cover images, 120 declared
tracks). -/
def sampleAlbumDetails : AlbumDetails :=
  { id := "alb1"
    name := "Album One"
    artists := [{ name := "Artist", id := "a1" }]
    release_date := "2024-01-01"
    total_tracks := 120
    images := [] }

/-- A concrete processed track whose album is a single
(`total_tracks = 1`). -/
def tSingle : ProcessedTrack :=
  { id := "t1"
    name := "Song"
    artists := [{ name := "Artist", id := "a1" }]
    popularity := 80
    duration_ms := 180000
    preview_url := none
    album := some
      { id := "alb1"
        name := "Album One"
        release_date := "2024-01-01"
        total_tracks := 1
        images := [] }
    explicit := some false }

/-- The same track with an album that declares two tracks. -/
def tDouble : ProcessedTrack :=
  { tSingle with album := some (
      { id := "alb2"
        name := "Album Two"
        release_date := "2024-01-01"
        total_tracks := 2
        images := [] } : ProcessedAlbumRef) }

/-- The raw search-result counterpart of `tSingle`. -/
def sSong : SpotifyTrack :=
  { id := "t1"
    name := "Song"
    artists := [{ name := "Artist", id := "a1" }]
    popularity := 80
    duration_ms := 180000
    preview_url := none
    album := some
      { id := "alb1"
        name := "Album One"
        release_date := "2024-01-01"
        images := [] }
    explicit := some false }

/-- A raw track with an empty artists array: evaluating the
primary-artist predicate on it throws. -/
def sNoArtists : SpotifyTrack :=
  { sSong with id := "t9", artists := [] }

/-- A search environment whose first page holds exactly `sSong` and whose
later pages are empty. -/
def searchPagesOne : Nat → List SpotifyTrack :=
  fun o => if o = 0 then [sSong] else []

/-- A search environment whose every page holds only the artist-less
track. -/
def badPages : Nat → List SpotifyTrack :=
  fun _ => [sNoArtists]

/-- An album environment whose first page cursor is exhausted
(`next: null`) and whose single stub resolves to `tSingle`. -/
def albumEnvOk : AlbumEnv :=
  { albumDetails := sampleAlbumDetails
    firstItems := [{ id := "t1", name := "Song", artists := [{ name := "Artist", id := "a1" }] }]
    firstNext := none
    pages := fun _ => []
    trackDetails := fun _ => tSingle }

/-- An album environment whose FIRST page reports a continuation cursor:
the album has more than one page of tracks, so `response.data.next` is a
URL string. Every page fetched inside the loop is empty, which does not
matter: the loop guard never looks at those pages. -/
def stuckAlbumEnv : AlbumEnv :=
  { albumEnvOk with
      firstNext := some "https://api.spotify.com/v1/albums/alb1/tracks?offset=50&limit=50" }

/-- The payload `trackBranch` assembles at the concrete single-track
inputs. -/
def rConcrete : TrackResult :=
  { track := tSingle
    albumTracks := [tSingle]
    trackRank := 1
    totalTracks := 1
    artistTopTracks := some [tSingle]
    artistTrackRank := some 1 }

/-! ### Helper lemmas about the primary-artist filter and the search loop -/

/-- Every track kept by the primary-artist filter has the target id as
the id of its first listed artist. -/
theorem filterPrimary_ok_mem {artistId : String} : ∀ {l res : List SpotifyTrack},
    filterPrimary artistId l = .ok res →
    ∀ t ∈ res, ∃ a rest, t.artists = a :: rest ∧ a.id = artistId := by
  intro l
  induction l with
  | nil =>
    intro res h t ht
    simp only [filterPrimary, Except.ok.injEq] at h
    subst h
    simp at ht
  | cons x ts ih =>
    intro res h t ht
    cases hx : x.artists with
    | nil => simp [filterPrimary, headArtistId, hx] at h
    | cons a arest =>
      cases hrec : filterPrimary artistId ts with
      | error e => simp [filterPrimary, headArtistId, hx, hrec] at h
      | ok res' =>
        by_cases hid : a.id = artistId
        · simp only [filterPrimary, headArtistId, hx, hrec, hid, if_pos, Except.ok.injEq] at h
          subst h
          rcases List.mem_cons.1 ht with rfl | hmem
          · exact ⟨a, arest, hx, hid⟩
          · exact ih hrec t hmem
        · simp only [filterPrimary, headArtistId, hx, hrec, hid, if_neg, if_false,
            Except.ok.injEq] at h
          subst h
          exact ih hrec t ht

/-- The primary-artist filter cannot throw when every input track has a
non-empty artists list. -/
theorem filterPrimary_total {artistId : String} : ∀ {l : List SpotifyTrack},
    (∀ t ∈ l, t.artists ≠ []) → ∃ res, filterPrimary artistId l = .ok res := by
  intro l
  induction l with
  | nil => exact fun _ => ⟨[], rfl⟩
  | cons x ts ih =>
    intro h
    obtain ⟨res', hres'⟩ := ih fun t ht => h t (List.mem_cons_of_mem _ ht)
    cases hx : x.artists with
    | nil => exact absurd hx (h x (List.mem_cons_self x ts))
    | cons a arest =>
      by_cases hid : a.id = artistId
      · exact ⟨x :: res', by simp [filterPrimary, headArtistId, hx, hres', hid]⟩
      · exact ⟨res', by simp [filterPrimary, headArtistId, hx, hres', hid]⟩

/-- Every search request issued by the search loop has an offset below
the 200 ceiling. -/
theorem searchLoop_offsets_lt (pages : Nat → List SpotifyTrack) (aid : String) :
    ∀ acc offset, ∀ o ∈ (searchLoop pages aid acc offset).2, o < 200 := by
  intro acc offset
  induction acc, offset using searchLoop.induct pages aid with
  | case1 acc off h newTracks hempty =>
    rw [searchLoop]
    simp only [dif_pos h, if_pos hempty]
    intro o ho
    simp only [List.mem_singleton] at ho
    omega
  | case2 acc off h newTracks hne e herr =>
    rw [searchLoop]
    simp only [dif_pos h, if_neg hne, herr]
    intro o ho
    simp only [List.mem_singleton] at ho
    omega
  | case3 acc off h newTracks hne newPrim hok ih =>
    rw [searchLoop]
    simp only [dif_pos h, if_neg hne, hok]
    intro o ho
    rcases List.mem_cons.1 ho with rfl | hmem
    · omega
    · exact ih o hmem
  | case4 acc off h =>
    rw [searchLoop]
    simp only [dif_neg h]
    intro o ho
    simp at ho

theorem searchLoop_stop_full (pages : Nat → List SpotifyTrack) (aid : String)
    (acc : List SpotifyTrack) (offset : Nat) (h : 100 ≤ acc.length) :
    searchLoop pages aid acc offset = (.ok acc, []) := by
  rw [searchLoop]
  simp [Nat.not_lt.2 h]

theorem searchLoop_stop_empty (pages : Nat → List SpotifyTrack) (aid : String)
    (acc : List SpotifyTrack) (offset : Nat) (h1 : acc.length < 100) (h2 : offset < 200)
    (h3 : pages offset = []) :
    searchLoop pages aid acc offset = (.ok acc, [offset]) := by
  rw [searchLoop]
  simp [h1, h2, h3]

theorem searchLoop_ok_mem (pages : Nat → List SpotifyTrack) (aid : String) :
    ∀ acc offset res tr, searchLoop pages aid acc offset = (.ok res, tr) →
    ∀ t ∈ res, t ∈ acc ∨ ∃ a rest, t.artists = a :: rest ∧ a.id = aid := by
  intro acc offset
  induction acc, offset using searchLoop.induct pages aid with
  | case1 acc off h newTracks hempty =>
    intro res tr heq t ht
    rw [searchLoop] at heq
    simp only [dif_pos h, if_pos hempty, Prod.mk.injEq, Except.ok.injEq] at heq
    exact Or.inl (heq.1 ▸ ht)
  | case2 acc off h newTracks hne e herr =>
    intro res tr heq t ht
    rw [searchLoop] at heq
    simp only [dif_pos h, if_neg hne, herr, Prod.mk.injEq] at heq
    exact absurd heq.1 (by simp)
  | case3 acc off h newTracks hne newPrim hok ih =>
    intro res tr heq t ht
    rw [searchLoop] at heq
    simp only [dif_pos h, if_neg hne, hok, Prod.mk.injEq] at heq
    rcases ih res _ (Prod.ext heq.1 rfl) t ht with hmem | hp
    · rcases List.mem_append.1 hmem with hmem | hmem
      · exact Or.inl hmem
      · exact Or.inr (filterPrimary_ok_mem hok t hmem)
    · exact Or.inr hp
  | case4 acc off h =>
    intro res tr heq t ht
    rw [searchLoop] at heq
    simp only [dif_neg h, Prod.mk.injEq, Except.ok.injEq] at heq
    exact Or.inl (heq.1 ▸ ht)

theorem searchLoop_ok_total (pages : Nat → List SpotifyTrack) (aid : String)
    (hp : ∀ o, ∀ t ∈ pages o, t.artists ≠ []) :
    ∀ acc offset, ∃ res tr, searchLoop pages aid acc offset = (.ok res, tr) := by
  intro acc offset
  induction acc, offset using searchLoop.induct pages aid with
  | case1 acc off h newTracks hempty =>
    exact ⟨acc, [off], by rw [searchLoop]; simp only [dif_pos h, if_pos hempty]⟩
  | case2 acc off h newTracks hne e herr =>
    obtain ⟨res, hres⟩ := @filterPrimary_total aid (pages off) (hp off)
    rw [herr] at hres
    exact absurd hres (by simp)
  | case3 acc off h newTracks hne newPrim hok ih =>
    obtain ⟨res, tr, hres⟩ := ih
    refine ⟨res, off :: tr, ?_⟩
    rw [searchLoop]
    simp only [dif_pos h, if_neg hne, hok, hres]
  | case4 acc off h =>
    exact ⟨acc, [], by rw [searchLoop]; simp only [dif_neg h]⟩


/-! ### Sortedness of the returned collections -/

/-- Sorting with the popularity comparator yields a pairwise
popularity-descending list. -/
theorem pairwise_mergeSort_popDescLe (l : List ProcessedTrack) :
    (l.mergeSort popDescLe).Pairwise fun a b => popDescLe a b := by
  apply List.sorted_mergeSort
  · intro a b c hab hbc
    simp only [popDescLe, decide_eq_true_eq] at *
    omega
  · intro a b
    simp only [popDescLe]
    rcases Nat.le_total b.popularity a.popularity with h | h <;> simp [h]

/-- A pairwise popularity-descending list places strictly more popular
tracks at strictly smaller indices. -/
theorem descByPopularity_of_pairwise {l : List ProcessedTrack}
    (h : l.Pairwise fun a b => popDescLe a b) : DescByPopularity l := by
  intro i j hi hj hlt
  rcases Nat.lt_trichotomy i j with hij | rfl | hij
  · exact hij
  · omega
  · have := (List.pairwise_iff_getElem.1 h) j i hj hi hij
    simp only [popDescLe, decide_eq_true_eq] at this
    omega

/-- Any list produced by `getAlbumTracks` is pairwise descending by
popularity. -/
theorem getAlbumTracks_desc (env : AlbumEnv) (fuel : Nat) (l : List ProcessedTrack)
    (h : getAlbumTracks env fuel = some l) : DescByPopularity l := by
  unfold getAlbumTracks at h
  cases hl : albumPagesLoop env fuel env.firstItems 50 with
  | none => rw [hl] at h; simp at h
  | some all =>
    rw [hl] at h
    obtain rfl := Option.some.inj h
    exact descByPopularity_of_pairwise (pairwise_mergeSort_popDescLe _)

/-- Any list produced by `getArtistTopTracks` is pairwise descending by
popularity. -/
theorem getArtistTopTracks_desc (pages : Nat → List SpotifyTrack) (aid : String)
    (l : List ProcessedTrack) (h : getArtistTopTracks pages aid = .ok l) :
    DescByPopularity l := by
  unfold getArtistTopTracks at h
  cases hs : (searchLoop pages aid [] 0).1 with
  | error e => rw [hs] at h; simp at h
  | ok prim =>
    rw [hs] at h
    simp only [Except.ok.injEq] at h
    subst h
    exact descByPopularity_of_pairwise
      ((pairwise_mergeSort_popDescLe _).sublist (List.take_sublist _ _))


/-! ### The album pagination loop: exit behavior -/

/-- With an exhausted first-page cursor the loop exits at once, returning
the accumulator unchanged, whatever the fuel. -/
theorem albumPagesLoop_of_next_none (env : AlbumEnv) (h : env.firstNext = none) :
    ∀ fuel acc offset, albumPagesLoop env fuel acc offset = some acc := by
  intro fuel acc offset
  cases fuel <;> simp [albumPagesLoop, h]

/-- With a present first-page cursor the loop guard holds at every
iteration (the cursor it reads is never updated), so the loop never
exits: no amount of fuel suffices. -/
theorem albumPagesLoop_of_next_some (env : AlbumEnv) (s : String) (h : env.firstNext = some s) :
    ∀ fuel acc offset, albumPagesLoop env fuel acc offset = none := by
  intro fuel
  induction fuel with
  | zero => intro acc offset; simp [albumPagesLoop, h]
  | succ n ih => intro acc offset; simp only [albumPagesLoop, h, Option.isSome_some, if_pos]; exact ih _ _

/-- Lifting of the previous fact to `getAlbumTracks`. -/
theorem getAlbumTracks_of_next_some (env : AlbumEnv) (s : String) (h : env.firstNext = some s)
    (fuel : Nat) : getAlbumTracks env fuel = none := by
  simp [getAlbumTracks, albumPagesLoop_of_next_some env s h]

/-! ### Evaluation of the sample environments -/

/-- The sample album environment resolves to the single processed track,
for any fuel. -/
theorem getAlbumTracks_albumEnvOk (fuel : Nat) :
    getAlbumTracks albumEnvOk fuel = some [tSingle] := by
  unfold getAlbumTracks
  rw [albumPagesLoop_of_next_none albumEnvOk rfl]
  simp [albumEnvOk, tSingle, sampleAlbumDetails]

theorem filterPrimary_sSong : filterPrimary "a1" [sSong] = .ok [sSong] := by
  simp [filterPrimary, headArtistId, sSong]

/-- The one-track search environment resolves to the single processed
track. -/
theorem getArtistTopTracks_searchPagesOne :
    getArtistTopTracks searchPagesOne "a1" = .ok [tSingle] := by
  have h50 : searchLoop searchPagesOne "a1" [sSong] 50 = (.ok [sSong], [50]) :=
    searchLoop_stop_empty _ _ _ _ (by simp) (by omega) (by simp [searchPagesOne])
  have h0 : searchLoop searchPagesOne "a1" [] 0 = (.ok [sSong], [0, 50]) := by
    rw [searchLoop]
    simp [searchPagesOne, filterPrimary_sSong, h50]
  simp [getArtistTopTracks, h0, processSearchTrack, sSong, tSingle]

/-- The artist-less search environment makes the resolver throw. -/
theorem getArtistTopTracks_badPages :
    getArtistTopTracks badPages "a1" = .error .typeError := by
  have h0 : searchLoop badPages "a1" [] 0 = (.error .typeError, [0]) := by
    rw [searchLoop]
    simp [badPages, filterPrimary, headArtistId, sNoArtists, sSong]
  simp [getArtistTopTracks, h0]

/-- When the track has an album, a first artist with a non-empty id, the
artist resolution answers and the album loop exits, the track branch
assembles the payload from those pieces. -/
theorem trackBranch_eq_ok (trackId : String) (tr : ProcessedTrack) (env : AlbumEnv)
    (pages : Nat → List SpotifyTrack) (fuel : Nat) (alb : ProcessedAlbumRef)
    (a : SpotifyArtist) (rest : List SpotifyArtist)
    (albumTracks artistTop : List ProcessedTrack)
    (halb : tr.album = some alb) (hart : tr.artists = a :: rest) (hid : a.id ≠ "")
    (htop : getArtistTopTracks pages a.id = .ok artistTop)
    (halbum : getAlbumTracks env fuel = some albumTracks) :
    trackBranch trackId tr env pages fuel = some (.ok
      { track := tr
        albumTracks := albumTracks
        trackRank := jsFindIndex albumTracks trackId + 1
        totalTracks := albumTracks.length
        artistTopTracks := if alb.total_tracks = 1 then some artistTop else none
        artistTrackRank :=
          if alb.total_tracks = 1 then some (jsFindIndex artistTop trackId + 1)
          else none }) := by
  unfold trackBranch
  rw [halb, hart]
  simp only [if_neg hid, htop, halbum]

/-- The track branch at the concrete single-track inputs. -/
theorem trackBranch_single :
    trackBranch "t1" tSingle albumEnvOk searchPagesOne 0 = some (.ok rConcrete) := by
  rw [trackBranch_eq_ok "t1" tSingle albumEnvOk searchPagesOne 0 _ _ _ [tSingle] [tSingle]
    rfl rfl (by decide) getArtistTopTracks_searchPagesOne (getAlbumTracks_albumEnvOk 0)]
  simp [rConcrete, jsFindIndex, tSingle]


/-- A track-branch evaluation that fails inside the artist resolution
surfaces as the caught `TypeError`, whatever the album side does. -/
theorem trackBranch_artist_error (trackId : String) (tr : ProcessedTrack) (env : AlbumEnv)
    (pages : Nat → List SpotifyTrack) (fuel : Nat) (alb : ProcessedAlbumRef)
    (a : SpotifyArtist) (rest : List SpotifyArtist) (e : JsError)
    (halb : tr.album = some alb) (hart : tr.artists = a :: rest) (hid : a.id ≠ "")
    (htop : getArtistTopTracks pages a.id = .error e) :
    trackBranch trackId tr env pages fuel = some (.error .typeError) := by
  unfold trackBranch
  rw [halb, hart]
  simp only [if_neg hid, htop]

/-- Shape of any successful artist-top-tracks resolution: at most 100
tracks, each the normalization of a search result whose first listed
artist carries the target id. -/
theorem getArtistTopTracks_ok_shape {pages : Nat → List SpotifyTrack} {aid : String}
    {l : List ProcessedTrack} (h : getArtistTopTracks pages aid = .ok l) :
    l.length ≤ 100 ∧
    ∀ t ∈ l, ∃ x : SpotifyTrack, t = processSearchTrack x ∧
      ∃ a rest, x.artists = a :: rest ∧ a.id = aid := by
  unfold getArtistTopTracks at h
  cases hs : (searchLoop pages aid [] 0).1 with
  | error e => rw [hs] at h; simp at h
  | ok prim =>
    rw [hs] at h
    simp only [Except.ok.injEq] at h
    subst h
    constructor
    · rw [List.length_take]
      exact Nat.min_le_left _ _
    · intro t ht
      have ht2 : t ∈ (prim.map processSearchTrack).mergeSort popDescLe :=
        List.mem_of_mem_take ht
      have ht3 : t ∈ prim.map processSearchTrack := List.mem_mergeSort.1 ht2
      obtain ⟨x, hx, rfl⟩ := List.mem_map.1 ht3
      refine ⟨x, rfl, ?_⟩
      rcases searchLoop_ok_mem pages aid [] 0 prim _ (Prod.ext hs rfl) x hx with hmem | hp
      · simp at hmem
      · exact hp

/-- Claim C1: every collection returned to the caller (album tracks from
`getAlbumTracks`, artist top tracks from `getArtistTopTracks`) is sorted
descending by popularity: for any two tracks a and b in a returned
collection, if a.popularity > b.popularity then a appears at a strictly
smaller index than b. -/
theorem returned_collections_sorted_desc :
    (∀ (env : AlbumEnv) (fuel : Nat) (l : List ProcessedTrack),
        getAlbumTracks env fuel = some l → DescByPopularity l) ∧
    (∀ (pages : Nat → List SpotifyTrack) (aid : String) (l : List ProcessedTrack),
        getArtistTopTracks pages aid = .ok l → DescByPopularity l) :=
  ⟨getAlbumTracks_desc, getArtistTopTracks_desc⟩

theorem returned_collections_sorted_desc_witness :
    DescByPopularity [tSingle] ∧ DescByPopularity [tSingle] :=
  ⟨returned_collections_sorted_desc.1 albumEnvOk 0 [tSingle] (getAlbumTracks_albumEnvOk 0),
   returned_collections_sorted_desc.2 searchPagesOne "a1" [tSingle]
     getArtistTopTracks_searchPagesOne⟩


/-- Claim C2 (code bug): the claim states that for every album
`getAlbumTracks` terminates — its page-fetch loop always reaches an
exit. The code contradicts this whenever the first page reports a
continuation cursor: the `while` guard reads `response.data.next` of the
first page response, which the loop body never reassigns, so once
entered the loop can never exit. At the concrete environment
`stuckAlbumEnv` (first-page `next` non-null), no fuel bound makes
`getAlbumTracks` produce a result; with an exhausted cursor it returns
at once. -/
theorem album_pagination_loop_never_exits :
    (∃ s, stuckAlbumEnv.firstNext = some s) ∧
    (∀ fuel, getAlbumTracks stuckAlbumEnv fuel = none) ∧
    (∀ env : AlbumEnv, env.firstNext = none →
      ∀ fuel, ∃ l, getAlbumTracks env fuel = some l) := by
  refine ⟨⟨_, rfl⟩, fun fuel => getAlbumTracks_of_next_some stuckAlbumEnv _ rfl fuel, ?_⟩
  intro env h fuel
  unfold getAlbumTracks
  rw [albumPagesLoop_of_next_none env h]
  exact ⟨_, rfl⟩

/-- Claim C5: the artist search loop stops requesting further pages as
soon as 100 primary-artist tracks are accumulated (no request is issued
from such a state), never issues a search request whose offset is 200 or
greater (every recorded request offset is below 200), and stops when a
page comes back empty (that page's request is the last one and the
accumulator is returned unchanged). -/
theorem search_loop_stop_conditions :
    (∀ (pages : Nat → List SpotifyTrack) (aid : String) (acc : List SpotifyTrack) (offset : Nat),
        100 ≤ acc.length → searchLoop pages aid acc offset = (.ok acc, [])) ∧
    (∀ (pages : Nat → List SpotifyTrack) (aid : String) (acc : List SpotifyTrack) (offset : Nat),
        ∀ o ∈ (searchLoop pages aid acc offset).2, o < 200) ∧
    (∀ (pages : Nat → List SpotifyTrack) (aid : String) (acc : List SpotifyTrack) (offset : Nat),
        acc.length < 100 → offset < 200 → pages offset = [] →
        searchLoop pages aid acc offset = (.ok acc, [offset])) :=
  ⟨searchLoop_stop_full, searchLoop_offsets_lt, searchLoop_stop_empty⟩

theorem search_loop_stop_conditions_witness :
    searchLoop badPages "a1" (List.replicate 100 sSong) 0 = (.ok (List.replicate 100 sSong), []) ∧
    (∀ o ∈ (searchLoop searchPagesOne "a1" [] 0).2, o < 200) ∧
    searchLoop searchPagesOne "a1" [sSong] 50 = (.ok [sSong], [50]) :=
  ⟨search_loop_stop_conditions.1 badPages "a1" _ 0 (by simp),
   search_loop_stop_conditions.2.1 searchPagesOne "a1" [] 0,
   search_loop_stop_conditions.2.2 searchPagesOne "a1" [sSong] 50 (by simp) (by omega)
     (by simp [searchPagesOne])⟩

/-- Claim C6: every list returned by `getArtistTopTracks` has length at
most 100, and every track in it has the target artist id as the id of
its first listed artist. -/
theorem artist_top_tracks_bounded_and_primary :
    ∀ (pages : Nat → List SpotifyTrack) (aid : String) (l : List ProcessedTrack),
      getArtistTopTracks pages aid = .ok l →
      l.length ≤ 100 ∧ ∀ t ∈ l, ∃ a rest, t.artists = a :: rest ∧ a.id = aid := by
  intro pages aid l h
  obtain ⟨hlen, hmem⟩ := getArtistTopTracks_ok_shape h
  refine ⟨hlen, fun t ht => ?_⟩
  obtain ⟨x, rfl, a, rest, hx, hid⟩ := hmem t ht
  exact ⟨a, rest, by simp [processSearchTrack, hx], hid⟩

theorem artist_top_tracks_bounded_and_primary_witness :
    [tSingle].length ≤ 100 ∧
    ∀ t ∈ [tSingle], ∃ a rest, t.artists = a :: rest ∧ a.id = "a1" :=
  artist_top_tracks_bounded_and_primary searchPagesOne "a1" [tSingle]
    getArtistTopTracks_searchPagesOne

/-- Claim C10: every track returned by `getArtistTopTracks` that carries
an album has that album's `total_tracks` field set to the constant 1,
regardless of the album's real track count: search results do not carry
the field, so the normalization hard-codes it. -/
theorem search_album_total_tracks_hardcoded_one :
    ∀ (pages : Nat → List SpotifyTrack) (aid : String) (l : List ProcessedTrack),
      getArtistTopTracks pages aid = .ok l →
      ∀ t ∈ l, ∀ alb, t.album = some alb → alb.total_tracks = 1 := by
  intro pages aid l h t ht alb halb
  obtain ⟨_, hmem⟩ := getArtistTopTracks_ok_shape h
  obtain ⟨x, rfl, _, _, _, _⟩ := hmem t ht
  simp only [processSearchTrack] at halb
  cases hx : x.album with
  | none => rw [hx] at halb; simp at halb
  | some xalb =>
    rw [hx] at halb
    rw [← Option.some.inj halb]

theorem search_album_total_tracks_hardcoded_one_witness :
    ({ id := "alb1", name := "Album One", release_date := "2024-01-01",
       total_tracks := 1, images := [] } : ProcessedAlbumRef).total_tracks = 1 :=
  search_album_total_tracks_hardcoded_one searchPagesOne "a1" [tSingle]
    getArtistTopTracks_searchPagesOne tSingle (List.mem_singleton.2 rfl) _ rfl


/-- When index `i` holds the first occurrence of the focal id,
`findIndex` answers `i`. -/
theorem jsFindIndex_first {l : List ProcessedTrack} {tid : String} {i : Nat}
    (hi : i < l.length) (hid : l[i].id = tid)
    (hmin : ∀ j (hj : j < l.length), j < i → l[j].id ≠ tid) :
    jsFindIndex l tid = (i : Int) := by
  have hidx : l.findIdx? (fun t => t.id == tid) = some i := by
    rw [List.findIdx?_eq_some_iff_getElem]
    refine ⟨hi, by simp [hid], fun j hji => ?_⟩
    simp only [Bool.not_eq_true, beq_eq_false_iff_ne, ne_eq]
    exact hmin j (Nat.lt_trans hji hi) hji
  simp [jsFindIndex, hidx]

/-- When no element carries the focal id, `findIndex` answers -1. -/
theorem jsFindIndex_of_not_mem {l : List ProcessedTrack} {tid : String}
    (h : ∀ t ∈ l, t.id ≠ tid) : jsFindIndex l tid = -1 := by
  have hidx : l.findIdx? (fun t => t.id == tid) = none := by
    rw [List.findIdx?_eq_none_iff]
    intro x hx
    simp [h x hx]
  simp [jsFindIndex, hidx]

/-- Inversion for a successful track-branch evaluation: the payload
fields are computed from its own collections exactly as the code
writes them. -/
theorem trackBranch_ok_inv {trackId : String} {tr : ProcessedTrack} {env : AlbumEnv}
    {pages : Nat → List SpotifyTrack} {fuel : Nat} {r : TrackResult}
    (h : trackBranch trackId tr env pages fuel = some (.ok r)) :
    ∃ alb artistTop, tr.album = some alb ∧
      getArtistTopTracks pages (tr.artists.headD ⟨"", ""⟩).id = .ok artistTop ∧
      getAlbumTracks env fuel = some r.albumTracks ∧
      r.track = tr ∧
      r.trackRank = jsFindIndex r.albumTracks trackId + 1 ∧
      r.totalTracks = r.albumTracks.length ∧
      r.artistTopTracks = (if alb.total_tracks = 1 then some artistTop else none) ∧
      r.artistTrackRank =
        (if alb.total_tracks = 1 then some (jsFindIndex artistTop trackId + 1) else none) := by
  unfold trackBranch at h
  cases halb : tr.album with
  | none => rw [halb] at h; simp at h
  | some alb =>
    rw [halb] at h
    cases hart : tr.artists with
    | nil => rw [hart] at h; simp at h
    | cons a rest =>
      rw [hart] at h
      simp only [] at h
      by_cases hid : a.id = ""
      · rw [if_pos hid] at h; simp at h
      · rw [if_neg hid] at h
        cases htop : getArtistTopTracks pages a.id with
        | error e => rw [htop] at h; simp at h
        | ok artistTop =>
          rw [htop] at h
          cases halbum : getAlbumTracks env fuel with
          | none => rw [halbum] at h; simp at h
          | some albumTracks =>
            rw [halbum] at h
            simp only [Option.some.injEq, Except.ok.injEq] at h
            subst h
            exact ⟨alb, artistTop, rfl, htop, rfl, rfl, rfl, rfl, rfl, rfl⟩


/-- Claim C3: the computed rank (`trackRank` / `artistTrackRank`, both of
shape `findIndex(...) + 1`) equals 1 plus the index of the first track in
the collection whose id equals the focal id, equals the sentinel 0 when
no track in the collection has the focal id, and `totalTracks` equals the
collection's length. -/
theorem track_rank_spec :
    (∀ (l : List ProcessedTrack) (tid : String) (i : Nat) (hi : i < l.length),
        l[i].id = tid → (∀ j (hj : j < l.length), j < i → l[j].id ≠ tid) →
        jsFindIndex l tid + 1 = (i : Int) + 1) ∧
    (∀ (l : List ProcessedTrack) (tid : String),
        (∀ t ∈ l, t.id ≠ tid) → jsFindIndex l tid + 1 = 0) ∧
    (∀ (trackId : String) (tr : ProcessedTrack) (env : AlbumEnv)
        (pages : Nat → List SpotifyTrack) (fuel : Nat) (r : TrackResult),
        trackBranch trackId tr env pages fuel = some (.ok r) →
        r.trackRank = jsFindIndex r.albumTracks trackId + 1 ∧
        r.totalTracks = r.albumTracks.length ∧
        ∀ topl, r.artistTopTracks = some topl →
          r.artistTrackRank = some (jsFindIndex topl trackId + 1)) := by
  refine ⟨?_, ?_, ?_⟩
  · intro l tid i hi hid hmin
    rw [jsFindIndex_first hi hid hmin]
  · intro l tid h
    rw [jsFindIndex_of_not_mem h]
    omega
  · intro trackId tr env pages fuel r h
    obtain ⟨alb, artistTop, -, -, -, -, hrank, htotal, hfields, hrankfield⟩ :=
      trackBranch_ok_inv h
    refine ⟨hrank, htotal, fun topl htopl => ?_⟩
    by_cases h1 : alb.total_tracks = 1
    · rw [hfields, if_pos h1] at htopl
      rw [hrankfield, if_pos h1, ← Option.some.inj htopl]
    · rw [hfields, if_neg h1] at htopl
      exact absurd htopl (by simp)

theorem track_rank_spec_witness :
    (jsFindIndex [tSingle, tDouble] "t1" + 1 = 1) ∧
    (jsFindIndex [tSingle] "zz" + 1 = 0) ∧
    (rConcrete.trackRank = jsFindIndex rConcrete.albumTracks "t1" + 1 ∧
     rConcrete.totalTracks = rConcrete.albumTracks.length ∧
     ∀ topl, rConcrete.artistTopTracks = some topl →
       rConcrete.artistTrackRank = some (jsFindIndex topl "t1" + 1)) :=
  ⟨track_rank_spec.1 [tSingle, tDouble] "t1" 0 (by decide) (by decide)
     (fun j _ hj => absurd hj (Nat.not_lt_zero j)),
   track_rank_spec.2.1 [tSingle] "zz" (by decide),
   track_rank_spec.2.2 "t1" tSingle albumEnvOk searchPagesOne 0 rConcrete trackBranch_single⟩


/-- Counterexample to claim C4 as stated: artist top-tracks are NOT
resolved "only when the track's album has exactly one total track". At
`tDouble` (album `total_tracks = 2`) the branch outcome depends on the
search environment — with pages whose first entry has no artists the
whole request fails with the caught `TypeError` thrown inside the artist
resolution, while with benign pages it succeeds — so the artist
resolution runs even though the album is not a single. Were the claim
true, the two outcomes would coincide. -/
theorem artist_resolution_unconditional_cex :
    (∃ alb, tDouble.album = some alb ∧ alb.total_tracks = 2) ∧
    trackBranch "t1" tDouble albumEnvOk badPages 0 = some (.error .typeError) ∧
    trackBranch "t1" tDouble albumEnvOk searchPagesOne 0 ≠ some (.error .typeError) := by
  refine ⟨⟨_, rfl, rfl⟩, ?_, ?_⟩
  · exact trackBranch_artist_error "t1" tDouble albumEnvOk badPages 0 _
      ⟨"Artist", "a1"⟩ [] .typeError rfl rfl (by decide) getArtistTopTracks_badPages
  · rw [trackBranch_eq_ok "t1" tDouble albumEnvOk searchPagesOne 0 _ ⟨"Artist", "a1"⟩ []
      [tSingle] [tSingle] rfl rfl (by decide) getArtistTopTracks_searchPagesOne
      (getAlbumTracks_albumEnvOk 0)]
    simp

/-- Claim C4, amended: in the track branch the artist top-tracks are
resolved unconditionally (in parallel with the album tracks — a failure
inside the artist resolution fails the request whatever the album's
total track count), but the response carries `artistTopTracks` and
`artistTrackRank` exactly when the track's album `total_tracks` equals
1. -/
theorem artist_top_fields_iff_single_album :
    (∀ (trackId : String) (tr : ProcessedTrack) (env : AlbumEnv)
        (pages : Nat → List SpotifyTrack) (fuel : Nat) (r : TrackResult)
        (alb : ProcessedAlbumRef),
        trackBranch trackId tr env pages fuel = some (.ok r) → tr.album = some alb →
        ((r.artistTopTracks ≠ none ↔ alb.total_tracks = 1) ∧
         (r.artistTrackRank ≠ none ↔ alb.total_tracks = 1))) ∧
    (∀ (trackId : String) (tr : ProcessedTrack) (env : AlbumEnv)
        (pages : Nat → List SpotifyTrack) (fuel : Nat) (alb : ProcessedAlbumRef)
        (a : SpotifyArtist) (rest : List SpotifyArtist) (e : JsError),
        tr.album = some alb → tr.artists = a :: rest → a.id ≠ "" →
        getArtistTopTracks pages a.id = .error e →
        trackBranch trackId tr env pages fuel = some (.error .typeError)) := by
  constructor
  · intro trackId tr env pages fuel r alb h halb
    obtain ⟨alb', artistTop, halb', -, -, -, -, -, hfields, hrankfield⟩ := trackBranch_ok_inv h
    obtain rfl : alb = alb' := Option.some.inj (halb.symm.trans halb')
    by_cases h1 : alb.total_tracks = 1
    · rw [hfields, hrankfield, if_pos h1, if_pos h1]
      simp [h1]
    · rw [hfields, hrankfield, if_neg h1, if_neg h1]
      simp [h1]
  · exact trackBranch_artist_error

theorem artist_top_fields_iff_single_album_witness :
    (rConcrete.artistTopTracks ≠ none ∧ rConcrete.artistTrackRank ≠ none) ∧
    trackBranch "t1" tDouble albumEnvOk badPages 0 = some (.error .typeError) := by
  constructor
  · have h := artist_top_fields_iff_single_album.1 "t1" tSingle albumEnvOk searchPagesOne 0
      rConcrete _ trackBranch_single rfl
    exact ⟨h.1.mpr rfl, h.2.mpr rfl⟩
  · exact artist_top_fields_iff_single_album.2 "t1" tDouble albumEnvOk badPages 0 _
      ⟨"Artist", "a1"⟩ [] .typeError rfl rfl (by decide) getArtistTopTracks_badPages

/-- Claim C9 (implicit): the track branch and the artist top-tracks
filter read `artists[0]` with no emptiness guard — the access is safe
(no `TypeError`) exactly when the artists list is non-empty; under the
precondition that every track in every search page has a non-empty
artists list the whole artist resolution is total; and under the
precondition that the focal track's artists list is non-empty with a
non-empty first id, the 404 `Artist information not found` branch is
unreachable. -/
theorem first_artist_access_safety :
    (∀ artists : List SpotifyArtist, headArtistId artists = .error .typeError ↔ artists = []) ∧
    (∀ (pages : Nat → List SpotifyTrack) (aid : String),
        (∀ o, ∀ t ∈ pages o, t.artists ≠ []) →
        ∃ l, getArtistTopTracks pages aid = .ok l) ∧
    (∀ (trackId : String) (tr : ProcessedTrack) (env : AlbumEnv)
        (pages : Nat → List SpotifyTrack) (fuel : Nat),
        tr.artists ≠ [] → (∀ a rest, tr.artists = a :: rest → a.id ≠ "") →
        trackBranch trackId tr env pages fuel ≠ some (.error .artistNotFound)) := by
  refine ⟨?_, ?_, ?_⟩
  · intro artists
    cases artists <;> simp [headArtistId]
  · intro pages aid hp
    obtain ⟨res, trace, hs⟩ := searchLoop_ok_total pages aid hp [] 0
    exact ⟨_, by unfold getArtistTopTracks; rw [hs]⟩
  · intro trackId tr env pages fuel hne hids h
    unfold trackBranch at h
    cases halb : tr.album with
    | none => rw [halb] at h; simp at h
    | some alb =>
      rw [halb] at h
      cases hart : tr.artists with
      | nil => exact absurd hart hne
      | cons a rest =>
        rw [hart] at h
        simp only [] at h
        have hid := hids a rest hart
        rw [if_neg hid] at h
        cases htop : getArtistTopTracks pages a.id with
        | error e => rw [htop] at h; simp at h
        | ok artistTop =>
          rw [htop] at h
          cases halbum : getAlbumTracks env fuel with
          | none => rw [halbum] at h; simp at h
          | some albumTracks => rw [halbum] at h; simp at h

theorem first_artist_access_safety_witness :
    (headArtistId [] = .error .typeError ↔ ([] : List SpotifyArtist) = []) ∧
    (∃ l, getArtistTopTracks searchPagesOne "a1" = .ok l) ∧
    trackBranch "t1" tSingle albumEnvOk searchPagesOne 0 ≠ some (.error .artistNotFound) := by
  refine ⟨first_artist_access_safety.1 [], ?_, ?_⟩
  · refine first_artist_access_safety.2.1 searchPagesOne "a1" ?_
    intro o t ht
    by_cases ho : o = 0
    · simp only [searchPagesOne, ho, if_pos] at ht
      simp only [List.mem_singleton] at ht
      subst ht
      simp [sSong]
    · simp [searchPagesOne, ho] at ht
  · refine first_artist_access_safety.2.2 "t1" tSingle albumEnvOk searchPagesOne 0
      (by simp [tSingle]) ?_
    intro a rest h
    simp only [tSingle, List.cons.injEq] at h
    rw [← h.1]
    decide


/-- The concrete URL head agrees with its string form. -/
theorem head_eq : trackUrlHead = "https://open.spotify.com/track/".toList := by decide

/-- Scanning the canonical head for the track pattern reaches the
`track/` occurrence at its tail: every earlier position fails on a
literal mismatch. -/
theorem skip_track (z : List Char) :
    matchCapture trackPat (trackUrlHead ++ z) = matchCapture trackPat (trackPat ++ z) := rfl

/-- The artist pattern does not occur anywhere in the canonical head:
scanning it reduces to scanning the remainder. -/
theorem skip_artist (z : List Char) :
    matchCapture artistPat (trackUrlHead ++ z) = matchCapture artistPat z := rfl

/-- The album pattern does not occur anywhere in the canonical head:
scanning it reduces to scanning the remainder. -/
theorem skip_album (z : List Char) :
    matchCapture albumPat (trackUrlHead ++ z) = matchCapture albumPat z := rfl

theorem matchCapture_cons_skip (pat : List Char) (c : Char) (cs : List Char)
    (hp : pat.isPrefixOf (c :: cs) = false) :
    matchCapture pat (c :: cs) = matchCapture pat cs := by
  rw [matchCapture, hp]

theorem matchCapture_cons_exhausted (pat : List Char) (c : Char) (cs : List Char)
    (hp : pat.isPrefixOf (c :: cs) = true) (hd : (c :: cs).drop pat.length = []) :
    matchCapture pat (c :: cs) = matchCapture pat cs := by
  rw [matchCapture, hp, hd]

theorem matchCapture_cons_found (pat : List Char) (c : Char) (cs : List Char) (d : Char)
    (ds : List Char) (hp : pat.isPrefixOf (c :: cs) = true)
    (hd : (c :: cs).drop pat.length = d :: ds) (ha : isAlnumChar d = true) :
    matchCapture pat (c :: cs) = some (d :: takeAlnum ds) := by
  rw [matchCapture, hp, hd]
  simp [ha]

/-- A pattern containing a slash cannot match inside a slash-free
string. -/
theorem matchCapture_none_of_no_slash (pat : List Char) (hpat : '/' ∈ pat) :
    ∀ s : List Char, (∀ c ∈ s, c ≠ '/') → matchCapture pat s = none := by
  intro s
  induction s with
  | nil => intro _; rfl
  | cons c cs ih =>
    intro hs
    cases hp : pat.isPrefixOf (c :: cs) with
    | true =>
      exfalso
      have hsub : pat ⊆ c :: cs := (List.isPrefixOf_iff_prefix.1 hp).subset
      exact hs '/' (hsub hpat) rfl
    | false =>
      rw [matchCapture_cons_skip pat c cs hp]
      exact ih fun x hx => hs x (List.mem_cons_of_mem c hx)

/-- Two characters cannot be equal when exactly one of them is
alphanumeric. -/
theorem alnum_ne {c d : Char} (hc : isAlnumChar c = true) (hd : isAlnumChar d = false) :
    c ≠ d := by
  intro h
  rw [h, hd] at hc
  exact Bool.false_ne_true hc

/-- If an all-alphanumeric pattern followed by a slash is a prefix of an
all-alphanumeric run followed by an admissible suffix, then the run is
the pattern itself and the suffix is the lone slash. -/
theorem prefix_pat_slash (pi : List Char) (hpi : ∀ c ∈ pi, isAlnumChar c = true) :
    ∀ (u v : List Char), (∀ c ∈ u, isAlnumChar c = true) → SuffixOK v →
    (pi ++ ['/']).isPrefixOf (u ++ v) = true → u = pi ∧ v = ['/'] := by
  induction pi with
  | nil =>
    intro u v hu hv hp
    cases u with
    | nil =>
      rcases hv with rfl | rfl | ⟨q, rfl, hq⟩
      · simp at hp
      · exact ⟨rfl, rfl⟩
      · simp only [List.nil_append, List.isPrefixOf, List.cons.injEq] at hp
        have : ('/' == '?') = false := by decide
        rw [this] at hp
        simp at hp
    | cons c u2 =>
      exfalso
      simp only [List.nil_append, List.cons_append, List.isPrefixOf] at hp
      have hcc : ('/' == c) = true := by
        cases hcc : ('/' == c) with
        | true => rfl
        | false => rw [hcc] at hp; simp at hp
      have : c ≠ '/' := fun h => by
        have := hu c (List.mem_cons_self c u2)
        rw [h] at this
        exact absurd this (by decide)
      exact this (eq_of_beq hcc).symm
  | cons p pi2 ih =>
    intro u v hu hv hp
    cases u with
    | nil =>
      exfalso
      rcases hv with rfl | rfl | ⟨q, rfl, hq⟩
      · simp at hp
      · simp only [List.nil_append, List.cons_append, List.isPrefixOf] at hp
        simp only [Bool.and_eq_true] at hp
        obtain ⟨-, hp2⟩ := hp
        have hlen := (List.isPrefixOf_iff_prefix.1 hp2).length_le
        simp [List.length_append] at hlen
      · simp only [List.nil_append, List.cons_append, List.isPrefixOf] at hp
        simp only [Bool.and_eq_true] at hp
        obtain ⟨hp1, -⟩ := hp
        have hpq : p = '?' := eq_of_beq hp1
        have := hpi p (List.mem_cons_self p pi2)
        rw [hpq] at this
        exact absurd this (by decide)
    | cons c u2 =>
      simp only [List.cons_append, List.isPrefixOf] at hp
      simp only [Bool.and_eq_true] at hp
      obtain ⟨hp1, hp2⟩ := hp
      obtain rfl : p = c := eq_of_beq hp1
      obtain ⟨rfl, rfl⟩ := ih (fun x hx => hpi x (List.mem_cons_of_mem p hx)) u2 v
        (fun x hx => hu x (List.mem_cons_of_mem p hx)) hv hp2
      exact ⟨rfl, rfl⟩

/-- A pattern of the shape `word/` (word non-empty and alphanumeric)
never matches inside an alphanumeric run followed by an admissible
suffix: the only place its literal part can occur is the run itself, and
then nothing alphanumeric follows the slash. -/
theorem matchCapture_none_alnum_append (pi : List Char)
    (hpi : ∀ c ∈ pi, isAlnumChar c = true) (hne : pi ≠ []) :
    ∀ (u v : List Char), (∀ c ∈ u, isAlnumChar c = true) → SuffixOK v →
    matchCapture (pi ++ ['/']) (u ++ v) = none := by
  intro u
  induction u with
  | nil =>
    intro v hu hv
    obtain ⟨p, pi2, rfl⟩ : ∃ p pi2, pi = p :: pi2 := by
      cases pi with
      | nil => exact absurd rfl hne
      | cons p pi2 => exact ⟨p, pi2, rfl⟩
    have hpa : isAlnumChar p = true := hpi p (List.mem_cons_self p pi2)
    rcases hv with rfl | rfl | ⟨q, rfl, hq⟩
    · rfl
    · rw [List.nil_append]
      have hp : ((p :: pi2) ++ ['/']).isPrefixOf ['/'] = false := by
        simp only [List.cons_append, List.isPrefixOf]
        have : (p == '/') = false :=
          beq_eq_false_iff_ne.2 (alnum_ne hpa (by decide))
        rw [this]
        rfl
      rw [matchCapture_cons_skip _ _ _ hp]
      rfl
    · rw [List.nil_append]
      have hp : ((p :: pi2) ++ ['/']).isPrefixOf ('?' :: q) = false := by
        simp only [List.cons_append, List.isPrefixOf]
        have : (p == '?') = false :=
          beq_eq_false_iff_ne.2 (alnum_ne hpa (by decide))
        rw [this]
        rfl
      rw [matchCapture_cons_skip _ _ _ hp]
      exact matchCapture_none_of_no_slash _ (by simp) q hq
  | cons c u2 ih =>
    intro v hu hv
    rw [List.cons_append]
    cases hp : (pi ++ ['/']).isPrefixOf (c :: (u2 ++ v)) with
    | false =>
      rw [matchCapture_cons_skip _ _ _ hp]
      exact ih v (fun x hx => hu x (List.mem_cons_of_mem c hx)) hv
    | true =>
      obtain ⟨hu2, rfl⟩ := prefix_pat_slash pi hpi (c :: u2) v hu hv hp
      have hd : (c :: (u2 ++ ['/'])).drop (pi ++ ['/']).length = [] := by
        apply List.drop_eq_nil_of_le
        rw [← List.cons_append, hu2]
      rw [matchCapture_cons_exhausted _ _ _ hp hd]
      exact ih ['/'] (fun x hx => hu x (List.mem_cons_of_mem c hx)) (Or.inr (Or.inl rfl))

/-- An all-alphanumeric run followed by an admissible suffix: the greedy
capture takes exactly the run. -/
theorem takeAlnum_run (u v : List Char) (hu : ∀ c ∈ u, isAlnumChar c = true)
    (hv : SuffixOK v) : takeAlnum (u ++ v) = u := by
  induction u with
  | nil =>
    rcases hv with rfl | rfl | ⟨q, rfl, hq⟩
    · rfl
    · simp [takeAlnum, isAlnumChar]
    · simp [takeAlnum, isAlnumChar]
  | cons c u2 ih =>
    rw [List.cons_append, takeAlnum, if_pos (hu c (List.mem_cons_self c u2))]
    rw [ih fun x hx => hu x (List.mem_cons_of_mem c hx)]

/-- A list is a `isPrefixOf`-prefix of itself followed by anything. -/
theorem isPrefixOf_self_append (l t : List Char) : l.isPrefixOf (l ++ t) = true := by
  induction l with
  | nil => simp
  | cons c l2 ih => simp [List.isPrefixOf, ih]

/-- When the literal part matches at the very front and an alphanumeric
character follows, the capture starts right there. -/
theorem matchCapture_self_append (pat : List Char) (hpat : pat ≠ []) (d : Char)
    (ds : List Char) (ha : isAlnumChar d = true) :
    matchCapture pat (pat ++ (d :: ds)) = some (d :: takeAlnum ds) := by
  obtain ⟨p, ps, rfl⟩ : ∃ p ps, pat = p :: ps := by
    cases pat with
    | nil => exact absurd rfl hpat
    | cons p ps => exact ⟨p, ps, rfl⟩
  exact matchCapture_cons_found _ _ _ _ _ (isPrefixOf_self_append _ _)
    (List.drop_left (p :: ps) (d :: ds)) ha

/-- Counterexample to claim C7 as stated: a URL of the form
`.../track/{id}` with a surrounding query parameter need not classify as
a track. The query parameter below contains an `artist/<id>` segment,
the artist regex is tried first, and the input classifies as an artist
lookup. -/
theorem track_url_classification_cex :
    classifyUrl "https://open.spotify.com/track/abc?from=artist/xyz".toList =
      .artist "xyz".toList ∧
    classifyUrl "https://open.spotify.com/track/abc?from=artist/xyz".toList ≠
      .track "abc".toList := by decide

/-- Claim C7, amended: for every id drawn from the provider's id
alphabet `[a-zA-Z0-9]+`, classifying a URL of the form
`https://open.spotify.com/track/{id}` — followed by nothing, by a
trailing slash, or by a query string that starts with `?` and contains
no slash (so no `artist/`, `album/` or `track/` segment can hide in it)
— yields a track classification carrying exactly that id. -/
theorem track_url_classification_amended :
    ∀ (id suffix : List Char), id ≠ [] → (∀ c ∈ id, isAlnumChar c = true) →
    SuffixOK suffix →
    classifyUrl (trackUrlHead ++ id ++ suffix) = .track id := by
  intro id suffix hne hid hv
  obtain ⟨c, id0, rfl⟩ : ∃ c id0, id = c :: id0 := by
    cases id with
    | nil => exact absurd rfl hne
    | cons c id0 => exact ⟨c, id0, rfl⟩
  have ha : matchCapture artistPat (trackUrlHead ++ (c :: id0) ++ suffix) = none := by
    rw [List.append_assoc, skip_artist]
    exact matchCapture_none_alnum_append ['a', 'r', 't', 'i', 's', 't'] (by decide) (by decide)
      (c :: id0) suffix hid hv
  have hb : matchCapture albumPat (trackUrlHead ++ (c :: id0) ++ suffix) = none := by
    rw [List.append_assoc, skip_album]
    exact matchCapture_none_alnum_append ['a', 'l', 'b', 'u', 'm'] (by decide) (by decide)
      (c :: id0) suffix hid hv
  have ht : matchCapture trackPat (trackUrlHead ++ (c :: id0) ++ suffix) = some (c :: id0) := by
    rw [List.append_assoc, skip_track, List.cons_append,
      matchCapture_self_append trackPat (by decide) c (id0 ++ suffix)
        (hid c (List.mem_cons_self c id0)),
      takeAlnum_run id0 suffix (fun x hx => hid x (List.mem_cons_of_mem c hx)) hv]
  unfold classifyUrl
  rw [ha, hb, ht]

theorem track_url_classification_amended_witness :
    classifyUrl (trackUrlHead ++ ['a', 'b', 'c', '1'] ++ ['?', 's', 'i', '=', 'x']) =
      .track ['a', 'b', 'c', '1'] :=
  track_url_classification_amended ['a', 'b', 'c', '1'] ['?', 's', 'i', '=', 'x']
    (by decide) (by decide) (Or.inr (Or.inr ⟨['s', 'i', '=', 'x'], rfl, by decide⟩))

/-- Counterexample to claim C8 as stated: a non-empty input that matches
none of the three URL patterns CAN produce an error outcome. The
playlist URL below contains the marker `spotify.com`, so the front end
POSTs it to the lookup route instead of searching, and the route's URL
detection falls through to the 400 `Invalid Spotify URL` error
response. -/
theorem unmatched_spotify_input_error_cex :
    playlistUrl ≠ [] ∧
    matchCapture artistPat playlistUrl = none ∧
    matchCapture albumPat playlistUrl = none ∧
    matchCapture trackPat playlistUrl = none ∧
    dispatch playlistUrl = .lookup .invalidUrl ∧
    dispatch playlistUrl ≠ .search := by decide

/-- Claim C8, amended: an input with non-whitespace content that does
not contain a Spotify domain marker (`spotify.com` / `spotify.link`) is
treated as a free-text search query — never POSTed to the lookup route,
hence never an error outcome of the classifier; an unmatched input that
does contain such a marker is POSTed and yields the 400 error instead. -/
theorem non_url_input_is_search :
    ∀ q : List Char, isBlank q = false → isSpotifyUrl q = false →
    dispatch q = .search ∧ ∀ c : UrlClass, dispatch q ≠ .lookup c := by
  intro q h1 h2
  refine ⟨by simp [dispatch, h1, h2], fun c => by simp [dispatch, h1, h2]⟩

theorem non_url_input_is_search_witness :
    dispatch "hello world".toList = .search ∧
    ∀ c : UrlClass, dispatch "hello world".toList ≠ .lookup c :=
  non_url_input_is_search _ (by decide) (by decide)

end TrackRank
